import Mathlib

/-!
Verification of the GoDissys store-and-forward mail relay.

The development shallowly embeds the three components of the system:
the nameserver (directory service, `nameserver/nameserver.go`), the
mailbox store (`mailbox/mailbox.go`) and the transfer relay
(`transferserver`).  Go maps become functions into `Option`, gRPC
status errors become `Except.error` carrying the error text, and the
business-outcome responses become plain structures.
-/

namespace GoDissys

/-- MailMessage from `proto/mail.proto`: sender, recipient, subject,
body and a unix timestamp. -/
structure MailMessage where
  senderEmail : String
  recipientEmail : String
  subject : String
  body : String
  timestamp : Int
  deriving DecidableEq, Repr

/-- Splitting a character list at every occurrence of the separator
character, the embedding of Go `strings.Split` for a one-character
separator (the only way the repository uses it). -/
def splitOnChar (c : Char) : List Char → List (List Char)
  | [] => [[]]
  | x :: xs =>
    let r := splitOnChar c xs
    if x = c then [] :: r
    else
      match r with
      | [] => [[x]]
      | y :: ys => (x :: y) :: ys

/-- `strings.Split` on a one-character separator returns one more part
than there are separator occurrences. -/
theorem splitOnChar_length (c : Char) (l : List Char) :
    (splitOnChar c l).length = l.count c + 1 := by
  induction l with
  | nil => simp [splitOnChar]
  | cons x xs ih =>
    by_cases hx : x = c
    · subst hx
      simp [splitOnChar, List.count_cons, ih]
    · rcases hr : splitOnChar c xs with _ | ⟨y, ys⟩
      · rw [hr] at ih; simp at ih
      · rw [hr] at ih
        simp only [splitOnChar, hr, if_neg hx]
        simp only [List.length_cons] at ih ⊢
        have hne : (x == c) = false := by simp [hx]
        simp [List.count_cons, hne, ih]

/-- The domain of an email address: the part after the `@`, extracted
exactly as `RegisterMailbox` does (`strings.Split(email, "@")[1]`). -/
def emailDomain (addr : String) : String :=
  ((splitOnChar '@' addr.toList).getD 1 []).asString

/-! ## Nameserver (directory service) -/

/-- Response of the `RegisterMailbox` RPC. -/
structure RegisterMailboxResponse where
  success : Bool
  message : String
  deriving DecidableEq, Repr

/-- Response of the `LookupMailbox` RPC. -/
structure LookupMailboxResponse where
  mailboxAddress : String
  found : Bool
  deriving DecidableEq, Repr

/-- The nameserver's state: the `mailboxes` map from full email
address to mailbox network address, and the immutable set of
`responsibleDomains` fixed at construction. -/
structure NameserverState where
  mailboxes : String → Option String
  responsibleDomains : List String

/-- `NewServer(domains)`: empty mailbox map, the given responsible
domains. -/
def initialNameserver (domains : List String) : NameserverState :=
  { mailboxes := fun _ => none, responsibleDomains := domains }

/-- `RegisterMailbox` from `nameserver/nameserver.go`: validation
errors become `Except.error`; the unauthorized-domain rejection and
the successful registration are `Except.ok` business outcomes paired
with the resulting state. -/
def RegisterMailbox (s : NameserverState) (emailAddress mailboxAddr : String) :
    Except String (NameserverState × RegisterMailboxResponse) :=
  if emailAddress = "" ∨ mailboxAddr = "" then
    .error "email address and mailbox address cannot be empty"
  else
    let parts := splitOnChar '@' emailAddress.toList
    if parts.length ≠ 2 then
      .error ("invalid email address format: " ++ emailAddress)
    else
      let domain := (parts.getD 1 []).asString
      if domain ∈ s.responsibleDomains then
        .ok ({ s with
                mailboxes := fun k =>
                  if k = emailAddress then some mailboxAddr else s.mailboxes k },
             { success := true, message := "Mailbox registered successfully" })
      else
        .ok (s, { success := false,
                  message := "Domain '" ++ domain ++ "' is not managed by this Nameserver." })

/-- `LookupMailbox` from `nameserver/nameserver.go`. -/
def LookupMailbox (s : NameserverState) (emailAddress : String) :
    Except String LookupMailboxResponse :=
  if emailAddress = "" then
    .error "email address cannot be empty"
  else
    match s.mailboxes emailAddress with
    | none => .ok { mailboxAddress := "", found := false }
    | some addr => .ok { mailboxAddress := addr, found := true }

/-- Nameserver states reachable from a freshly constructed server by
any sequence of RPCs.  `LookupMailbox` never changes the state and a
request rejected with a validation error leaves the map untouched, so
only successful `RegisterMailbox` steps matter. -/
inductive ReachableNS : NameserverState → Prop
  | init (domains : List String) : ReachableNS (initialNameserver domains)
  | step {s s2 : NameserverState} {a l : String} {r : RegisterMailboxResponse} :
      ReachableNS s → RegisterMailbox s a l = .ok (s2, r) → ReachableNS s2

/-! ## Mailbox store -/

/-- Response of the `ReceiveMail` RPC. -/
structure ReceiveMailResponse where
  success : Bool
  message : String
  deriving DecidableEq, Repr

/-- The mailbox server's state: `userInboxes` maps a full email
address to the slice of messages stored for it (`none` models a key
absent from the Go map). -/
structure MailboxState where
  userInboxes : String → Option (List MailMessage)

/-- `NewServer()` for the mailbox: empty inbox map. -/
def initialMailbox : MailboxState :=
  { userInboxes := fun _ => none }

/-- `ReceiveMail` from `mailbox/mailbox.go`: validates the message,
then appends it to the recipient's inbox (Go `append` on the map entry
creates the inbox when absent). -/
def ReceiveMail (s : MailboxState) (msg : Option MailMessage) :
    Except String (MailboxState × ReceiveMailResponse) :=
  match msg with
  | none => .error "mail message cannot be empty"
  | some m =>
    if m.recipientEmail = "" then
      .error "recipient email cannot be empty"
    else
      .ok ({ userInboxes := fun k =>
               if k = m.recipientEmail then
                 some ((s.userInboxes m.recipientEmail).getD [] ++ [m])
               else s.userInboxes k },
           { success := true, message := "Mail received successfully" })

/-- `GetMail` from `mailbox/mailbox.go`: returns the stored messages
for the address and resets the inbox to an empty slice; a missing or
empty inbox yields an empty list with no state change. -/
def GetMail (s : MailboxState) (emailAddress : String) :
    Except String (MailboxState × List MailMessage) :=
  if emailAddress = "" then
    .error "email address cannot be empty"
  else
    match s.userInboxes emailAddress with
    | none => .ok (s, [])
    | some messages =>
      if messages.length = 0 then
        .ok (s, [])
      else
        .ok ({ userInboxes := fun k =>
                 if k = emailAddress then some [] else s.userInboxes k },
             messages)

/-- Delivering a list of messages one after the other through
`ReceiveMail` (a failed validation leaves the state unchanged, as the
Go server does). -/
def enqueueAll (s : MailboxState) (msgs : List MailMessage) : MailboxState :=
  msgs.foldl
    (fun st m =>
      match ReceiveMail st (some m) with
      | .ok (st2, _) => st2
      | .error _ => st) s

/-! ## Transfer relay

`SendMail` (transfer server) looks the recipient up in the nameserver,
dials the resolved mailbox once, then attempts delivery up to
`maxRetries + 1` times with exponential backoff.  The embedding keeps
the nameserver answer and the dial outcome as parameters (they are the
results of the two preparatory RPCs) and drives each delivery attempt
by an `AttemptBehavior` oracle: either the `ReceiveMail` RPC fails at
the transport level, or it returns a response with `success = false`,
or it actually reaches the mailbox server and `ReceiveMail` runs.
Besides the response, the model records how many attempts were made,
which backoff durations (in milliseconds) were slept, whether the
mailbox connection was dialed, and the final mailbox state. -/

/-- `maxRetries` constant from the transfer server. -/
def maxRetries : Nat := 3

/-- `initialBackoff` constant, in milliseconds (500ms). -/
def initialBackoff : Nat := 500

/-- `maxBackoff` constant, in milliseconds (5s). -/
def maxBackoff : Nat := 5000

/-- `backoff *= 2; if backoff > maxBackoff { backoff = maxBackoff }`. -/
def nextBackoff (backoff : Nat) : Nat :=
  let b := backoff * 2
  if b > maxBackoff then maxBackoff else b

/-- Response of the `SendMail` RPC. -/
structure SendMailResponse where
  success : Bool
  message : String
  deriving DecidableEq, Repr

/-- How the `ReceiveMail` RPC of one delivery attempt behaves. -/
inductive AttemptBehavior where
  | rpcError (err : String)
  | failResponse (message : String)
  | deliver
  deriving DecidableEq, Repr

/-- Outcome of one delivery attempt and the mailbox state after it:
either success, or a failure together with the `lastErr` text the
transfer server records for it. -/
inductive AttemptResult where
  | success (mb : MailboxState)
  | failure (errText : String) (mb : MailboxState)

/-- The `lastErr` text the transfer server formats for a failed
attempt (`fmt.Errorf` in the two failure branches of the loop). -/
def attemptErrText (m : MailMessage) (recipientMailboxAddr : String) :
    AttemptBehavior → String
  | .rpcError e =>
    "error sending mail to mailbox '" ++ recipientMailboxAddr ++ "': " ++ e
  | .failResponse fm =>
    "mail delivery to '" ++ m.recipientEmail ++ "' failed: " ++ fm
  | .deliver => ""

/-- Run one delivery attempt against the mailbox. -/
def runAttempt (m : MailMessage) (recipientMailboxAddr : String)
    (b : AttemptBehavior) (mb : MailboxState) : AttemptResult :=
  match b with
  | .rpcError e =>
    .failure ("error sending mail to mailbox '" ++ recipientMailboxAddr ++ "': " ++ e) mb
  | .failResponse fm =>
    .failure ("mail delivery to '" ++ m.recipientEmail ++ "' failed: " ++ fm) mb
  | .deliver =>
    match ReceiveMail mb (some m) with
    | .error e =>
      .failure ("error sending mail to mailbox '" ++ recipientMailboxAddr ++ "': " ++ e) mb
    | .ok (mb2, r) =>
      if r.success then .success mb2
      else .failure ("mail delivery to '" ++ m.recipientEmail ++ "' failed: " ++ r.message) mb2

/-- The aggregated failure message after all attempts are exhausted. -/
def exhaustedMsg (lastErr : String) : String :=
  "Mail delivery failed after " ++ toString maxRetries ++ " retries: " ++ lastErr

/-- Result of the delivery loop: number of attempts actually made, the
backoff durations slept (in order), the mailbox state afterwards and
the `SendMailResponse`. -/
structure LoopResult where
  attempts : Nat
  sleeps : List Nat
  mailbox : MailboxState
  resp : SendMailResponse

/-- The retry loop `for i := 0; i <= maxRetries; i++` of `SendMail`.
Arguments after the behavior oracle: remaining iterations, current
index `i`, current `backoff`, current `lastErr`, mailbox state.  The
server sleeps only when more retries remain (`i < maxRetries`, that
is, more than one iteration remains). -/
def deliveryLoop (m : MailMessage) (recipientMailboxAddr : String)
    (beh : Nat → AttemptBehavior) :
    Nat → Nat → Nat → String → MailboxState → LoopResult
  | 0, _, _, lastErr, mb =>
    ⟨0, [], mb, { success := false, message := exhaustedMsg lastErr }⟩
  | n + 1, i, backoff, _, mb =>
    match runAttempt m recipientMailboxAddr (beh i) mb with
    | .success mb2 =>
      ⟨1, [], mb2, { success := true, message := "Mail sent successfully" }⟩
    | .failure errText mb2 =>
      if n = 0 then
        let r := deliveryLoop m recipientMailboxAddr beh n (i + 1) backoff errText mb2
        ⟨r.attempts + 1, r.sleeps, r.mailbox, r.resp⟩
      else
        let r := deliveryLoop m recipientMailboxAddr beh n (i + 1)
          (nextBackoff backoff) errText mb2
        ⟨r.attempts + 1, backoff :: r.sleeps, r.mailbox, r.resp⟩

/-- Observable trace of one `SendMail` call. -/
structure SendTrace where
  attempts : Nat
  sleeps : List Nat
  dialed : Bool
  mailbox : MailboxState
  result : Except String SendMailResponse

/-- `SendMail` from the transfer server.  `lookupResult` is the answer
of the nameserver's `LookupMailbox` RPC, `dialError` the outcome of
dialing the resolved mailbox address (`none` when the connection is
established). -/
def SendMail (lookupResult : Except String LookupMailboxResponse)
    (dialError : Option String) (beh : Nat → AttemptBehavior)
    (msg : Option MailMessage) (mb : MailboxState) : SendTrace :=
  match msg with
  | none => ⟨0, [], false, mb, .error "mail message cannot be empty"⟩
  | some m =>
    if m.recipientEmail = "" then
      ⟨0, [], false, mb, .error "recipient email cannot be empty"⟩
    else
      match lookupResult with
      | .error e =>
        ⟨0, [], false, mb, .error ("failed to lookup recipient mailbox: " ++ e)⟩
      | .ok lookupResp =>
        if lookupResp.found = false then
          ⟨0, [], false, mb,
           .ok { success := false,
                 message := "Recipient '" ++ m.recipientEmail ++ "' not found" }⟩
        else
          match dialError with
          | some e =>
            ⟨0, [], true, mb, .error ("failed to connect to recipient mailbox: " ++ e)⟩
          | none =>
            let r := deliveryLoop m lookupResp.mailboxAddress beh
              (maxRetries + 1) 0 initialBackoff "<nil>" mb
            ⟨r.attempts, r.sleeps, true, r.mailbox, .ok r.resp⟩

/-- The backoff value after `j` backoff updates starting from `b`. -/
def backoffAfter (b : Nat) : Nat → Nat
  | 0 => b
  | j + 1 => backoffAfter (nextBackoff b) j

/-! ## Lemmas about the delivery loop -/

theorem runAttempt_ne_deliver (m : MailMessage) (addr : String)
    (mb : MailboxState) {b : AttemptBehavior} (hb : b ≠ .deliver) :
    runAttempt m addr b mb = .failure (attemptErrText m addr b) mb := by
  cases b with
  | rpcError e => rfl
  | failResponse fm => rfl
  | deliver => exact absurd rfl hb

theorem runAttempt_deliver (m : MailMessage) (addr : String)
    (mb : MailboxState) (hm : m.recipientEmail ≠ "") :
    runAttempt m addr .deliver mb =
      .success { userInboxes := fun k =>
        (if k = m.recipientEmail then
          some ((mb.userInboxes m.recipientEmail).getD [] ++ [m])
        else mb.userInboxes k) } := by
  simp [runAttempt, ReceiveMail, hm]

theorem deliveryLoop_attempts_le (m : MailMessage) (addr : String)
    (beh : Nat → AttemptBehavior) :
    ∀ n i b e mb, (deliveryLoop m addr beh n i b e mb).attempts ≤ n := by
  intro n
  induction n with
  | zero => intro i b e mb; simp [deliveryLoop]
  | succ n ih =>
    intro i b e mb
    simp only [deliveryLoop]
    rcases h : runAttempt m addr (beh i) mb with mb2 | ⟨et, mb2⟩
    · simp
    · by_cases hn : n = 0
      · subst hn; simp [deliveryLoop]
      · simp only [if_neg hn]
        have := ih (i + 1) (nextBackoff b) et mb2
        simpa using Nat.succ_le_succ this

theorem deliveryLoop_attempts_pos (m : MailMessage) (addr : String)
    (beh : Nat → AttemptBehavior) (n i b : Nat) (e : String) (mb : MailboxState) :
    1 ≤ (deliveryLoop m addr beh (n + 1) i b e mb).attempts := by
  simp only [deliveryLoop]
  rcases h : runAttempt m addr (beh i) mb with mb2 | ⟨et, mb2⟩
  · simp
  · by_cases hn : n = 0 <;> simp [hn]

theorem deliveryLoop_all_fail (m : MailMessage) (addr : String)
    (beh : Nat → AttemptBehavior) :
    ∀ n i b e mb, (∀ j, j < n → beh (i + j) ≠ .deliver) →
      (deliveryLoop m addr beh n i b e mb).attempts = n ∧
      (deliveryLoop m addr beh n i b e mb).mailbox = mb ∧
      (deliveryLoop m addr beh n i b e mb).resp =
        { success := false,
          message := exhaustedMsg
            (if n = 0 then e else attemptErrText m addr (beh (i + n - 1))) } := by
  intro n
  induction n with
  | zero => intro i b e mb _; simp [deliveryLoop]
  | succ n ih =>
    intro i b e mb h
    have h0 : beh i ≠ .deliver := by simpa using h 0 (Nat.succ_pos n)
    simp only [deliveryLoop]
    rw [runAttempt_ne_deliver m addr mb h0]
    by_cases hn : n = 0
    · subst hn
      refine ⟨by simp [deliveryLoop], by simp [deliveryLoop], ?_⟩
      simp [deliveryLoop]
    · have h2 : ∀ j, j < n → beh ((i + 1) + j) ≠ .deliver := by
        intro j hj
        have := h (j + 1) (by omega)
        have harith : i + (j + 1) = (i + 1) + j := by omega
        rwa [harith] at this
      obtain ⟨ha, hmb, hr⟩ :=
        ih (i + 1) (nextBackoff b) (attemptErrText m addr (beh i)) mb h2
      simp only [if_neg hn]
      refine ⟨by simp [ha], by simp [hmb], ?_⟩
      have harith : (i + 1) + n - 1 = i + (n + 1) - 1 := by omega
      simp only [hr, if_neg hn, harith]
      simp

theorem deliveryLoop_prefix_success (m : MailMessage) (addr : String)
    (beh : Nat → AttemptBehavior) :
    ∀ k n i b e mb mb2, k < n →
      (∀ j, j < k → beh (i + j) ≠ .deliver) →
      runAttempt m addr (beh (i + k)) mb = .success mb2 →
      (deliveryLoop m addr beh n i b e mb).attempts = k + 1 ∧
      (deliveryLoop m addr beh n i b e mb).mailbox = mb2 ∧
      (deliveryLoop m addr beh n i b e mb).resp =
        { success := true, message := "Mail sent successfully" } := by
  intro k
  induction k with
  | zero =>
    intro n i b e mb mb2 hkn _ hsucc
    obtain ⟨n', rfl⟩ : ∃ n', n = n' + 1 := ⟨n - 1, by omega⟩
    rw [Nat.add_zero] at hsucc
    simp only [deliveryLoop]
    rw [hsucc]
    exact ⟨rfl, rfl, rfl⟩
  | succ k ih =>
    intro n i b e mb mb2 hkn hfail hsucc
    obtain ⟨n', rfl⟩ : ∃ n', n = n' + 1 := ⟨n - 1, by omega⟩
    have h0 : beh i ≠ .deliver := by simpa using hfail 0 (Nat.succ_pos k)
    simp only [deliveryLoop]
    rw [runAttempt_ne_deliver m addr mb h0]
    have hn' : n' ≠ 0 := by omega
    simp only [if_neg hn']
    have hf2 : ∀ j, j < k → beh ((i + 1) + j) ≠ .deliver := by
      intro j hj
      have := hfail (j + 1) (by omega)
      have harith : i + (j + 1) = (i + 1) + j := by omega
      rwa [harith] at this
    have hs2 : runAttempt m addr (beh ((i + 1) + k)) mb = .success mb2 := by
      have harith : (i + 1) + k = i + (k + 1) := by omega
      rwa [harith]
    obtain ⟨ha, hmb, hr⟩ :=
      ih n' (i + 1) (nextBackoff b) (attemptErrText m addr (beh i)) mb mb2
        (by omega) hf2 hs2
    exact ⟨by simp [ha], by simpa using hmb, by simpa using hr⟩

theorem deliveryLoop_sleeps (m : MailMessage) (addr : String)
    (beh : Nat → AttemptBehavior) :
    ∀ n i b e mb,
      (deliveryLoop m addr beh n i b e mb).sleeps =
        (List.range ((deliveryLoop m addr beh n i b e mb).attempts - 1)).map
          (backoffAfter b) := by
  intro n
  induction n with
  | zero => intro i b e mb; simp [deliveryLoop]
  | succ n ih =>
    intro i b e mb
    simp only [deliveryLoop]
    rcases h : runAttempt m addr (beh i) mb with mb2 | ⟨et, mb2⟩
    · simp
    · by_cases hn : n = 0
      · subst hn; simp [deliveryLoop]
      · obtain ⟨n', rfl⟩ : ∃ n', n = n' + 1 := ⟨n - 1, by omega⟩
        simp only [if_neg hn]
        obtain ⟨t, ht⟩ : ∃ t,
            (deliveryLoop m addr beh (n' + 1) (i + 1) (nextBackoff b) et mb2).attempts
              = t + 1 := by
          have hpos := deliveryLoop_attempts_pos m addr beh n' (i + 1) (nextBackoff b) et mb2
          exact ⟨(deliveryLoop m addr beh (n' + 1) (i + 1) (nextBackoff b) et mb2).attempts - 1,
            by omega⟩
        have hrec := ih (i + 1) (nextBackoff b) et mb2
        rw [ht] at hrec
        simp only [ht, hrec, Nat.add_sub_cancel]
        rw [List.range_succ_eq_map, List.map_cons, List.map_map]
        rfl

theorem backoffAfter_eq_min :
    ∀ (j b : Nat), b ≤ maxBackoff →
      backoffAfter b j = min (b * 2 ^ j) maxBackoff := by
  intro j
  induction j with
  | zero =>
    intro b hb
    simp [backoffAfter, Nat.min_eq_left hb]
  | succ j ih =>
    intro b hb
    have hnb : nextBackoff b ≤ maxBackoff := by
      simp only [nextBackoff]
      split <;> omega
    rw [show backoffAfter b (j + 1) = backoffAfter (nextBackoff b) j from rfl,
      ih _ hnb]
    have hpow : 1 ≤ 2 ^ j := Nat.one_le_two_pow
    have hsucc : b * 2 ^ (j + 1) = b * 2 * 2 ^ j := by ring
    simp only [nextBackoff]
    split
    · rename_i hgt
      have h1 : maxBackoff ≤ maxBackoff * 2 ^ j := Nat.le_mul_of_pos_right _ (by omega)
      have h2 : maxBackoff ≤ b * 2 ^ (j + 1) := by
        rw [hsucc]
        calc maxBackoff ≤ b * 2 := by omega
          _ ≤ b * 2 * 2 ^ j := Nat.le_mul_of_pos_right _ (by omega)
      omega
    · rw [hsucc]

/-! ## Claims about the transfer relay -/

/-- C1: for a valid message with a registered recipient, `SendMail`
makes at most `maxRetries + 1` delivery attempts in total; when the
first `k` attempts fail (`k ≤ maxRetries`) and attempt `k + 1`
succeeds, exactly `k + 1` attempts are made, the call returns
`success = true` with message "Mail sent successfully" immediately,
and exactly one copy of the message is appended to the recipient's
inbox (all other inboxes untouched). -/
theorem sendMail_succeeds_after_k_failures
    (lookupAddr : String) (beh : Nat → AttemptBehavior) (m : MailMessage)
    (mb : MailboxState) (k : Nat)
    (hm : m.recipientEmail ≠ "") (hk : k ≤ maxRetries)
    (hfail : ∀ j, j < k → beh j ≠ AttemptBehavior.deliver)
    (hdeliver : beh k = AttemptBehavior.deliver) :
    (∀ lookupResult dialError beh2 msg mb2,
        (SendMail lookupResult dialError beh2 msg mb2).attempts ≤ maxRetries + 1) ∧
    (SendMail (.ok { mailboxAddress := lookupAddr, found := true })
        none beh (some m) mb).attempts = k + 1 ∧
    (SendMail (.ok { mailboxAddress := lookupAddr, found := true })
        none beh (some m) mb).result =
      .ok { success := true, message := "Mail sent successfully" } ∧
    (SendMail (.ok { mailboxAddress := lookupAddr, found := true })
        none beh (some m) mb).mailbox.userInboxes m.recipientEmail =
      some ((mb.userInboxes m.recipientEmail).getD [] ++ [m]) ∧
    (∀ B, B ≠ m.recipientEmail →
      (SendMail (.ok { mailboxAddress := lookupAddr, found := true })
          none beh (some m) mb).mailbox.userInboxes B = mb.userInboxes B) := by
  constructor
  · intro lookupResult dialError beh2 msg mb2
    cases msg with
    | none => simp [SendMail]
    | some m2 =>
      by_cases hm2 : m2.recipientEmail = ""
      · simp [SendMail, hm2]
      · cases lookupResult with
        | error e => simp [SendMail, hm2]
        | ok lr =>
          by_cases hf : lr.found = false
          · simp [SendMail, hm2, hf]
          · cases dialError with
            | some e => simp [SendMail, hm2, hf]
            | none =>
              simp only [SendMail, if_neg hm2, if_neg hf]
              exact deliveryLoop_attempts_le m2 lr.mailboxAddress beh2
                (maxRetries + 1) 0 initialBackoff "<nil>" mb2
  · have hfail0 : ∀ j, j < k → beh (0 + j) ≠ AttemptBehavior.deliver := by
      intro j hj
      rw [Nat.zero_add]
      exact hfail j hj
    have hsucc : runAttempt m lookupAddr (beh (0 + k)) mb =
        .success { userInboxes := fun key =>
          (if key = m.recipientEmail then
            some ((mb.userInboxes m.recipientEmail).getD [] ++ [m])
          else mb.userInboxes key) } := by
      rw [Nat.zero_add, hdeliver]
      exact runAttempt_deliver m lookupAddr mb hm
    obtain ⟨ha, hmb, hr⟩ := deliveryLoop_prefix_success m lookupAddr beh k
      (maxRetries + 1) 0 initialBackoff "<nil>" mb _ (by omega) hfail0 hsucc
    refine ⟨?_, ?_, ?_, ?_⟩
    · simp only [SendMail, if_neg hm]
      simpa using ha
    · simp only [SendMail, if_neg hm]
      simpa using hr
    · simp only [SendMail, if_neg hm]
      simp only [hmb]
      simp
    · intro B hB
      simp only [SendMail, if_neg hm]
      simp only [hmb]
      simp [hB]

/-- C1 witness: a mailbox that fails the first two attempts with a
transport error and then accepts: three attempts, success, one copy
delivered, and the bound on total attempts. -/
theorem sendMail_succeeds_after_k_failures_witness :
    (∀ lookupResult dialError beh2 msg mb2,
        (SendMail lookupResult dialError beh2 msg mb2).attempts ≤ maxRetries + 1) ∧
    (SendMail (.ok { mailboxAddress := "localhost:50052", found := true })
        none (fun i => if i < 2 then .rpcError "connection refused" else .deliver)
        (some ⟨"alice@earth.com", "bob@earth.com", "hi", "text", 7⟩)
        initialMailbox).attempts = 2 + 1 ∧
    (SendMail (.ok { mailboxAddress := "localhost:50052", found := true })
        none (fun i => if i < 2 then .rpcError "connection refused" else .deliver)
        (some ⟨"alice@earth.com", "bob@earth.com", "hi", "text", 7⟩)
        initialMailbox).result =
      .ok { success := true, message := "Mail sent successfully" } ∧
    (SendMail (.ok { mailboxAddress := "localhost:50052", found := true })
        none (fun i => if i < 2 then .rpcError "connection refused" else .deliver)
        (some ⟨"alice@earth.com", "bob@earth.com", "hi", "text", 7⟩)
        initialMailbox).mailbox.userInboxes "bob@earth.com" =
      some ((initialMailbox.userInboxes "bob@earth.com").getD []
        ++ [⟨"alice@earth.com", "bob@earth.com", "hi", "text", 7⟩]) ∧
    (∀ B, B ≠ "bob@earth.com" →
      (SendMail (.ok { mailboxAddress := "localhost:50052", found := true })
          none (fun i => if i < 2 then .rpcError "connection refused" else .deliver)
          (some ⟨"alice@earth.com", "bob@earth.com", "hi", "text", 7⟩)
          initialMailbox).mailbox.userInboxes B = initialMailbox.userInboxes B) :=
  sendMail_succeeds_after_k_failures "localhost:50052"
    (fun i => if i < 2 then .rpcError "connection refused" else .deliver)
    ⟨"alice@earth.com", "bob@earth.com", "hi", "text", 7⟩ initialMailbox 2
    (by decide) (by decide)
    (fun j hj => by simp [hj])
    (by decide)

/-- C2: when every one of the `maxRetries + 1` attempts fails (by a
transport error or an explicit non-success delivery response),
`SendMail` makes all `maxRetries + 1` attempts and returns
`success = false` with the message
"Mail delivery failed after <maxRetries> retries: <last error>", the
last error being the text produced by the final attempt. -/
theorem sendMail_exhausts_retries
    (lookupAddr : String) (beh : Nat → AttemptBehavior) (m : MailMessage)
    (mb : MailboxState)
    (hm : m.recipientEmail ≠ "")
    (hfail : ∀ j, j ≤ maxRetries → beh j ≠ AttemptBehavior.deliver) :
    (SendMail (.ok { mailboxAddress := lookupAddr, found := true })
        none beh (some m) mb).attempts = maxRetries + 1 ∧
    (SendMail (.ok { mailboxAddress := lookupAddr, found := true })
        none beh (some m) mb).result =
      .ok { success := false,
            message := "Mail delivery failed after " ++ toString maxRetries
              ++ " retries: " ++ attemptErrText m lookupAddr (beh maxRetries) } := by
  have hfail0 : ∀ j, j < maxRetries + 1 → beh (0 + j) ≠ AttemptBehavior.deliver := by
    intro j hj
    rw [Nat.zero_add]
    exact hfail j (by omega)
  obtain ⟨ha, _, hr⟩ := deliveryLoop_all_fail m lookupAddr beh
    (maxRetries + 1) 0 initialBackoff "<nil>" mb hfail0
  constructor
  · simp only [SendMail, if_neg hm]
    simpa using ha
  · simp only [SendMail, if_neg hm]
    simp only [hr]
    simp [exhaustedMsg]

/-- C2 witness: a transport failure, two explicit failure responses
and a final transport failure exhaust the retries; the aggregated
message carries the final attempt's error text. -/
theorem sendMail_exhausts_retries_witness :
    (SendMail (.ok { mailboxAddress := "localhost:50052", found := true })
        none (fun i => if i = 3 then .rpcError "tcp reset" else .failResponse "inbox full")
        (some ⟨"alice@earth.com", "bob@earth.com", "hi", "text", 7⟩)
        initialMailbox).attempts = maxRetries + 1 ∧
    (SendMail (.ok { mailboxAddress := "localhost:50052", found := true })
        none (fun i => if i = 3 then .rpcError "tcp reset" else .failResponse "inbox full")
        (some ⟨"alice@earth.com", "bob@earth.com", "hi", "text", 7⟩)
        initialMailbox).result =
      .ok { success := false,
            message := "Mail delivery failed after 3 retries: "
              ++ "error sending mail to mailbox 'localhost:50052': tcp reset" } :=
  sendMail_exhausts_retries "localhost:50052"
    (fun i => if i = 3 then .rpcError "tcp reset" else .failResponse "inbox full")
    ⟨"alice@earth.com", "bob@earth.com", "hi", "text", 7⟩ initialMailbox
    (by decide)
    (fun j hj => by
      by_cases h3 : j = 3 <;> simp [h3])

/-- C3: when the nameserver lookup answers `found = false`, `SendMail`
returns `success = false` with message "Recipient '<address>' not
found", makes zero delivery attempts, never dials the mailbox, and
leaves the mailbox state untouched. -/
theorem sendMail_recipient_not_found
    (lookupAddr : String) (dialError : Option String)
    (beh : Nat → AttemptBehavior) (m : MailMessage) (mb : MailboxState)
    (hm : m.recipientEmail ≠ "") :
    SendMail (.ok { mailboxAddress := lookupAddr, found := false })
        dialError beh (some m) mb =
      ⟨0, [], false, mb,
       .ok { success := false,
             message := "Recipient '" ++ m.recipientEmail ++ "' not found" }⟩ := by
  simp [SendMail, hm]

/-- C3 witness: an unregistered recipient produces the not-found
business failure with no attempt, no dial and no mailbox change. -/
theorem sendMail_recipient_not_found_witness :
    SendMail (.ok { mailboxAddress := "", found := false })
        none (fun _ => .deliver)
        (some ⟨"alice@earth.com", "carol@earth.com", "hi", "text", 7⟩)
        initialMailbox =
      ⟨0, [], false, initialMailbox,
       .ok { success := false,
             message := "Recipient 'carol@earth.com' not found" }⟩ :=
  sendMail_recipient_not_found "" none (fun _ => .deliver)
    ⟨"alice@earth.com", "carol@earth.com", "hi", "text", 7⟩ initialMailbox
    (by decide)

/-- C4: in every run of `SendMail`, the backoff waits happen exactly
between consecutive delivery attempts (`attempts - 1` of them, never
after the last attempt) and the wait before the `(j+1)`-st retry is
`min (initialBackoff * 2 ^ j) maxBackoff`. -/
theorem sendMail_backoff_schedule
    (lookupResult : Except String LookupMailboxResponse)
    (dialError : Option String) (beh : Nat → AttemptBehavior)
    (msg : Option MailMessage) (mb : MailboxState) :
    (SendMail lookupResult dialError beh msg mb).sleeps =
      (List.range ((SendMail lookupResult dialError beh msg mb).attempts - 1)).map
        (fun j => min (initialBackoff * 2 ^ j) maxBackoff) ∧
    (SendMail lookupResult dialError beh msg mb).sleeps.length =
      (SendMail lookupResult dialError beh msg mb).attempts - 1 := by
  have hmain : (SendMail lookupResult dialError beh msg mb).sleeps =
      (List.range ((SendMail lookupResult dialError beh msg mb).attempts - 1)).map
        (fun j => min (initialBackoff * 2 ^ j) maxBackoff) := by
    cases msg with
    | none => simp [SendMail]
    | some m =>
      by_cases hm : m.recipientEmail = ""
      · simp [SendMail, hm]
      · cases lookupResult with
        | error e => simp [SendMail, hm]
        | ok lr =>
          by_cases hf : lr.found = false
          · simp [SendMail, hm, hf]
          · cases dialError with
            | some e => simp [SendMail, hm, hf]
            | none =>
              simp only [SendMail, if_neg hm, if_neg hf]
              rw [deliveryLoop_sleeps m lr.mailboxAddress beh
                (maxRetries + 1) 0 initialBackoff "<nil>" mb]
              apply List.map_congr_left
              intro j _
              exact backoffAfter_eq_min j initialBackoff (by norm_num [initialBackoff, maxBackoff])
  exact ⟨hmain, by rw [hmain]; simp⟩

/-- C4 witness: with every attempt failing, the three waits are
500ms, 1000ms and 2000ms, one between each pair of consecutive
attempts and none after the fourth. -/
theorem sendMail_backoff_schedule_witness :
    (SendMail (.ok { mailboxAddress := "localhost:50052", found := true })
        none (fun _ => .rpcError "connection refused")
        (some ⟨"alice@earth.com", "bob@earth.com", "hi", "text", 7⟩)
        initialMailbox).sleeps =
      (List.range ((SendMail (.ok { mailboxAddress := "localhost:50052", found := true })
          none (fun _ => .rpcError "connection refused")
          (some ⟨"alice@earth.com", "bob@earth.com", "hi", "text", 7⟩)
          initialMailbox).attempts - 1)).map
        (fun j => min (initialBackoff * 2 ^ j) maxBackoff) ∧
    (SendMail (.ok { mailboxAddress := "localhost:50052", found := true })
        none (fun _ => .rpcError "connection refused")
        (some ⟨"alice@earth.com", "bob@earth.com", "hi", "text", 7⟩)
        initialMailbox).sleeps.length =
      (SendMail (.ok { mailboxAddress := "localhost:50052", found := true })
          none (fun _ => .rpcError "connection refused")
          (some ⟨"alice@earth.com", "bob@earth.com", "hi", "text", 7⟩)
          initialMailbox).attempts - 1 :=
  sendMail_backoff_schedule
    (.ok { mailboxAddress := "localhost:50052", found := true }) none
    (fun _ => .rpcError "connection refused")
    (some ⟨"alice@earth.com", "bob@earth.com", "hi", "text", 7⟩) initialMailbox

/-! ## Lemmas and claims about the mailbox store -/

theorem getMail_empty (s : MailboxState) (A : String) (hA : A ≠ "")
    (h : (s.userInboxes A).getD [] = []) :
    GetMail s A = .ok (s, []) := by
  rcases hcase : s.userInboxes A with _ | l
  · simp [GetMail, hA, hcase]
  · have hl : l = [] := by simpa [hcase] using h
    subst hl
    simp [GetMail, hA, hcase]

theorem getMail_some_ne_nil (s : MailboxState) (A : String)
    (msgs : List MailMessage) (hA : A ≠ "")
    (hin : s.userInboxes A = some msgs) (hne : msgs ≠ []) :
    GetMail s A =
      .ok ({ userInboxes := fun k => (if k = A then some [] else s.userInboxes k) },
        msgs) := by
  simp [GetMail, hA, hin, hne]

theorem enqueueAll_inbox (A : String) (hA : A ≠ "") :
    ∀ (msgs : List MailMessage), (∀ m ∈ msgs, m.recipientEmail = A) →
      ∀ (s : MailboxState),
        ((enqueueAll s msgs).userInboxes A =
          if msgs = [] then s.userInboxes A
          else some ((s.userInboxes A).getD [] ++ msgs)) ∧
        (∀ B, B ≠ A → (enqueueAll s msgs).userInboxes B = s.userInboxes B) := by
  intro msgs
  induction msgs with
  | nil => intro _ s; simp [enqueueAll]
  | cons m rest ih =>
    intro hrec s
    have hmA : m.recipientEmail = A := hrec m (List.mem_cons_self m rest)
    have hm : m.recipientEmail ≠ "" := by rw [hmA]; exact hA
    have hstep : enqueueAll s (m :: rest) =
        enqueueAll { userInboxes := fun k =>
          (if k = m.recipientEmail then
            some ((s.userInboxes m.recipientEmail).getD [] ++ [m])
          else s.userInboxes k) } rest := by
      simp [enqueueAll, ReceiveMail, hm]
    obtain ⟨hin, hfr⟩ := ih (fun x hx => hrec x (List.mem_cons_of_mem m hx))
      { userInboxes := fun k =>
        (if k = m.recipientEmail then
          some ((s.userInboxes m.recipientEmail).getD [] ++ [m])
        else s.userInboxes k) }
    constructor
    · rw [hstep, hin]
      by_cases hrest : rest = []
      · subst hrest
        simp [hmA]
      · simp only [if_neg hrest, hmA]
        simp
    · intro B hB
      rw [hstep, hfr B hB]
      simp [hmA, hB]

/-- C5: draining via `GetMail` returns exactly the messages enqueued
since the last drain, in enqueue order, and resets the inbox, so an
immediate second drain returns an empty sequence; draining an address
with no inbox returns an empty sequence, not an error. -/
theorem getMail_drains_inbox (A : String) (msgs : List MailMessage)
    (s : MailboxState) (hA : A ≠ "")
    (hrec : ∀ m ∈ msgs, m.recipientEmail = A)
    (hempty : (s.userInboxes A).getD [] = []) :
    (∃ s2, GetMail (enqueueAll s msgs) A = .ok (s2, msgs) ∧
        GetMail s2 A = .ok (s2, [])) ∧
    (s.userInboxes A = none → GetMail s A = .ok (s, [])) := by
  constructor
  · by_cases hnil : msgs = []
    · subst hnil
      have h1 : enqueueAll s [] = s := by simp [enqueueAll]
      exact ⟨s, by rw [h1]; exact getMail_empty s A hA hempty,
        getMail_empty s A hA hempty⟩
    · have hin : (enqueueAll s msgs).userInboxes A = some msgs := by
        rw [(enqueueAll_inbox A hA msgs hrec s).1, if_neg hnil, hempty]
        simp
      refine ⟨_, getMail_some_ne_nil _ A msgs hA hin hnil, ?_⟩
      apply getMail_empty _ A hA
      simp
  · intro hnone
    simp [GetMail, hA, hnone]

/-- C5 witness: two messages enqueued into a fresh store come back in
order from one drain, the next drain is empty, and a fresh store
drains to the empty sequence. -/
theorem getMail_drains_inbox_witness :
    (∃ s2, GetMail (enqueueAll initialMailbox
          [⟨"alice@earth.com", "bob@earth.com", "one", "b1", 1⟩,
           ⟨"carol@earth.com", "bob@earth.com", "two", "b2", 2⟩]) "bob@earth.com" =
        .ok (s2, [⟨"alice@earth.com", "bob@earth.com", "one", "b1", 1⟩,
                  ⟨"carol@earth.com", "bob@earth.com", "two", "b2", 2⟩]) ∧
        GetMail s2 "bob@earth.com" = .ok (s2, [])) ∧
    (initialMailbox.userInboxes "bob@earth.com" = none →
      GetMail initialMailbox "bob@earth.com" = .ok (initialMailbox, [])) :=
  getMail_drains_inbox "bob@earth.com"
    [⟨"alice@earth.com", "bob@earth.com", "one", "b1", 1⟩,
     ⟨"carol@earth.com", "bob@earth.com", "two", "b2", 2⟩]
    initialMailbox (by decide) (by decide) (by decide)

/-- C10: mailbox operations touch only the addressed inbox — a
successful `ReceiveMail` leaves every other recipient's inbox
unchanged, and `GetMail` on an address leaves every other address's
inbox unchanged. -/
theorem mailbox_frame :
    (∀ (s s2 : MailboxState) (m : MailMessage) (r : ReceiveMailResponse),
        ReceiveMail s (some m) = .ok (s2, r) →
        ∀ B, B ≠ m.recipientEmail → s2.userInboxes B = s.userInboxes B) ∧
    (∀ (s s2 : MailboxState) (A : String) (msgs : List MailMessage),
        GetMail s A = .ok (s2, msgs) →
        ∀ B, B ≠ A → s2.userInboxes B = s.userInboxes B) := by
  constructor
  · intro s s2 m r h B hB
    by_cases hm : m.recipientEmail = ""
    · simp [ReceiveMail, hm] at h
    · simp only [ReceiveMail, if_neg hm, Except.ok.injEq, Prod.mk.injEq] at h
      rw [← h.1]
      simp [hB]
  · intro s s2 A msgs h B hB
    by_cases hA : A = ""
    · simp [GetMail, hA] at h
    · rcases hcase : s.userInboxes A with _ | l
      · simp only [GetMail, if_neg hA, hcase, Except.ok.injEq, Prod.mk.injEq] at h
        rw [← h.1]
      · by_cases hnil : l = []
        · subst hnil
          simp only [GetMail, if_neg hA, hcase, List.length_nil, eq_self_iff_true,
            if_true, Except.ok.injEq, Prod.mk.injEq] at h
          rw [← h.1]
        · have hlen : l.length ≠ 0 := by simpa using hnil
          simp only [GetMail, if_neg hA, hcase, if_neg hlen,
            Except.ok.injEq, Prod.mk.injEq] at h
          rw [← h.1]
          simp [hB]

/-- The state of a fresh mailbox store after receiving one message
for bob. -/
def mbAfterReceive : MailboxState :=
  { userInboxes := fun k =>
    (if k = "bob@earth.com" then
      some [⟨"alice@earth.com", "bob@earth.com", "hi", "text", 7⟩]
    else none) }

/-- The state of `mbAfterReceive` after bob's inbox is drained. -/
def mbAfterDrain : MailboxState :=
  { userInboxes := fun k =>
    (if k = "bob@earth.com" then some [] else mbAfterReceive.userInboxes k) }

/-- C10 witness: receiving for bob and draining bob both leave
carol's (absent) inbox exactly as it was. -/
theorem mailbox_frame_witness :
    mbAfterReceive.userInboxes "carol@earth.com" =
      initialMailbox.userInboxes "carol@earth.com" ∧
    mbAfterDrain.userInboxes "carol@earth.com" =
      mbAfterReceive.userInboxes "carol@earth.com" :=
  ⟨mailbox_frame.1 initialMailbox mbAfterReceive
      ⟨"alice@earth.com", "bob@earth.com", "hi", "text", 7⟩
      { success := true, message := "Mail received successfully" }
      rfl "carol@earth.com" (by decide),
   mailbox_frame.2 mbAfterReceive mbAfterDrain "bob@earth.com"
      [⟨"alice@earth.com", "bob@earth.com", "hi", "text", 7⟩]
      rfl "carol@earth.com" (by decide)⟩

/-! ## Lemmas and claims about the nameserver -/

theorem registerMailbox_ok_true {s s2 : NameserverState} {a l : String}
    {r : RegisterMailboxResponse}
    (h : RegisterMailbox s a l = .ok (s2, r)) (hr : r.success = true) :
    a ≠ "" ∧ l ≠ "" ∧
    (splitOnChar '@' a.toList).length = 2 ∧
    emailDomain a ∈ s.responsibleDomains ∧
    s2.mailboxes = (fun k => if k = a then some l else s.mailboxes k) ∧
    s2.responsibleDomains = s.responsibleDomains := by
  unfold RegisterMailbox at h
  split at h
  · simp at h
  · next h1 =>
    push_neg at h1
    dsimp only at h
    split at h
    · simp at h
    · next h2 =>
      rw [not_not] at h2
      split at h
      · next h3 =>
        simp only [Except.ok.injEq, Prod.mk.injEq] at h
        refine ⟨h1.1, h1.2, h2, ?_, ?_, ?_⟩
        · simpa [emailDomain] using h3
        · rw [← h.1]
        · rw [← h.1]
      · simp only [Except.ok.injEq, Prod.mk.injEq] at h
        rw [← h.2] at hr
        simp at hr

theorem registerMailbox_ok_not_true {s s2 : NameserverState} {a l : String}
    {r : RegisterMailboxResponse}
    (h : RegisterMailbox s a l = .ok (s2, r)) (hr : r.success ≠ true) :
    s2 = s := by
  unfold RegisterMailbox at h
  split at h
  · simp at h
  · dsimp only at h
    split at h
    · simp at h
    · split at h
      · simp only [Except.ok.injEq, Prod.mk.injEq] at h
        rw [← h.2] at hr
        simp at hr
      · simp only [Except.ok.injEq, Prod.mk.injEq] at h
        exact h.1.symm

/-- In every reachable nameserver state, a registered address splits
into exactly two parts at `@` and its domain is one the server is
responsible for. -/
theorem nameserver_invariant {s : NameserverState} (h : ReachableNS s) :
    ∀ a v, s.mailboxes a = some v →
      (splitOnChar '@' a.toList).length = 2 ∧
      emailDomain a ∈ s.responsibleDomains := by
  induction h with
  | init domains => intro a v hv; simp [initialNameserver] at hv
  | @step s s2 aa ll r _ hreg ih =>
    intro a v hv
    by_cases hsucc : r.success = true
    · obtain ⟨_, _, hlen, hdom, hmap, hdoms⟩ := registerMailbox_ok_true hreg hsucc
      rw [hmap] at hv
      have hv2 : (if a = aa then some ll else s.mailboxes a) = some v := hv
      by_cases hak : a = aa
      · subst hak
        rw [hdoms]
        exact ⟨hlen, hdom⟩
      · rw [if_neg hak] at hv2
        rw [hdoms]
        exact ih a v hv2
    · rw [registerMailbox_ok_not_true hreg hsucc] at hv ⊢
      exact ih a v hv

/-- C8: in every directory state reachable from the initial empty
state, every address with a directory entry contains exactly one `@`
and the part after it belongs to the server's authorized domain set. -/
theorem directory_entries_have_authorized_domains
    {s : NameserverState} (h : ReachableNS s) :
    ∀ a v, s.mailboxes a = some v →
      a.toList.count '@' = 1 ∧ emailDomain a ∈ s.responsibleDomains := by
  intro a v hv
  obtain ⟨hlen, hdom⟩ := nameserver_invariant h a v hv
  have hc := splitOnChar_length '@' a.toList
  exact ⟨by omega, hdom⟩

/-- The nameserver for earth.com after bob registers. -/
def nsAfterRegister : NameserverState :=
  { mailboxes := fun k =>
      (if k = "bob@earth.com" then some "localhost:50052"
       else (initialNameserver ["earth.com"]).mailboxes k),
    responsibleDomains := ["earth.com"] }

theorem nsAfterRegister_step :
    RegisterMailbox (initialNameserver ["earth.com"])
        "bob@earth.com" "localhost:50052" =
      .ok (nsAfterRegister,
        { success := true, message := "Mailbox registered successfully" }) := rfl

/-- C8 witness: after registering bob at the earth.com nameserver,
bob's entry indeed carries an authorized domain. -/
theorem directory_entries_have_authorized_domains_witness :
    "bob@earth.com".toList.count '@' = 1 ∧
    emailDomain "bob@earth.com" ∈ nsAfterRegister.responsibleDomains :=
  directory_entries_have_authorized_domains
    (ReachableNS.step (ReachableNS.init ["earth.com"]) nsAfterRegister_step)
    "bob@earth.com" "localhost:50052" (by decide)

/-- C6: registering a well-formed address whose domain the nameserver
does not manage is rejected as a business failure with the exact
message "Domain '<domain>' is not managed by this Nameserver.", the
directory state is returned unchanged, and a subsequent lookup of the
address still answers `found = false`. -/
theorem register_unauthorized_domain (s : NameserverState) (addr loc : String)
    (hre : ReachableNS s) (ha : addr ≠ "") (hl : loc ≠ "")
    (hc : addr.toList.count '@' = 1)
    (hdom : emailDomain addr ∉ s.responsibleDomains) :
    RegisterMailbox s addr loc =
      .ok (s, { success := false,
                message := "Domain '" ++ emailDomain addr
                  ++ "' is not managed by this Nameserver." }) ∧
    LookupMailbox s addr = .ok { mailboxAddress := "", found := false } := by
  have hl2 : (splitOnChar '@' addr.toList).length = 2 := by
    have := splitOnChar_length '@' addr.toList
    omega
  have hdom2 : ((splitOnChar '@' addr.toList).getD 1 []).asString ∉
      s.responsibleDomains := by
    simpa [emailDomain] using hdom
  constructor
  · unfold RegisterMailbox
    rw [if_neg (by push_neg; exact ⟨ha, hl⟩)]
    dsimp only
    rw [if_neg (not_not_intro hl2), if_neg hdom2]
    rfl
  · rcases hcase : s.mailboxes addr with _ | v
    · simp [LookupMailbox, ha, hcase]
    · exact absurd (nameserver_invariant hre addr v hcase).2 hdom

/-- C6 witness: registering bob@mars.com at the earth.com nameserver
is rejected with the unauthorized-domain message and a lookup still
does not find it. -/
theorem register_unauthorized_domain_witness :
    RegisterMailbox (initialNameserver ["earth.com"]) "bob@mars.com" "localhost:50052" =
      .ok (initialNameserver ["earth.com"],
        { success := false,
          message := "Domain '" ++ emailDomain "bob@mars.com"
            ++ "' is not managed by this Nameserver." }) ∧
    LookupMailbox (initialNameserver ["earth.com"]) "bob@mars.com" =
      .ok { mailboxAddress := "", found := false } :=
  register_unauthorized_domain (initialNameserver ["earth.com"])
    "bob@mars.com" "localhost:50052" (ReachableNS.init ["earth.com"])
    (by decide) (by decide) (by decide) (by decide)

/-- C7: after a successful registration of address A at location L,
looking A up answers `(true, L)`; a later successful re-registration
at L2 overwrites, and the lookup then answers `(true, L2)`. -/
theorem register_then_lookup
    (s s1 s2 : NameserverState) (A L L2 : String)
    (r r2 : RegisterMailboxResponse)
    (h1 : RegisterMailbox s A L = .ok (s1, r)) (hr1 : r.success = true)
    (h2 : RegisterMailbox s1 A L2 = .ok (s2, r2)) (hr2 : r2.success = true) :
    LookupMailbox s1 A = .ok { mailboxAddress := L, found := true } ∧
    LookupMailbox s2 A = .ok { mailboxAddress := L2, found := true } := by
  obtain ⟨hA, _, _, _, hmap1, _⟩ := registerMailbox_ok_true h1 hr1
  obtain ⟨_, _, _, _, hmap2, _⟩ := registerMailbox_ok_true h2 hr2
  constructor
  · simp [LookupMailbox, hA, hmap1]
  · simp [LookupMailbox, hA, hmap2]

/-- The earth.com nameserver after bob re-registers at a new mailbox
address. -/
def nsAfterUpdate : NameserverState :=
  { mailboxes := fun k =>
      (if k = "bob@earth.com" then some "localhost:60000"
       else nsAfterRegister.mailboxes k),
    responsibleDomains := ["earth.com"] }

/-- C7 witness: registering bob then re-registering him makes lookup
answer the first and then the second mailbox address. -/
theorem register_then_lookup_witness :
    LookupMailbox nsAfterRegister "bob@earth.com" =
      .ok { mailboxAddress := "localhost:50052", found := true } ∧
    LookupMailbox nsAfterUpdate "bob@earth.com" =
      .ok { mailboxAddress := "localhost:60000", found := true } :=
  register_then_lookup (initialNameserver ["earth.com"]) nsAfterRegister nsAfterUpdate
    "bob@earth.com" "localhost:50052" "localhost:60000"
    { success := true, message := "Mailbox registered successfully" }
    { success := true, message := "Mailbox registered successfully" }
    nsAfterRegister_step rfl rfl rfl

/-- C9: `RegisterMailbox` answers a validation error exactly when the
address is empty, the location is empty, or the address does not
contain exactly one `@`; otherwise (including an empty local part or
an empty domain part) the call proceeds to the domain-authority
check, whose outcome decides the business response. -/
theorem register_validation_error_iff (s : NameserverState) (addr loc : String) :
    ((∃ e, RegisterMailbox s addr loc = .error e) ↔
      (addr = "" ∨ loc = "" ∨ addr.toList.count '@' ≠ 1)) ∧
    (addr ≠ "" → loc ≠ "" → addr.toList.count '@' = 1 →
      ∃ s2 r, RegisterMailbox s addr loc = .ok (s2, r) ∧
        (r.success = true ↔ emailDomain addr ∈ s.responsibleDomains)) := by
  have hcount := splitOnChar_length '@' addr.toList
  constructor
  · constructor
    · rintro ⟨e, he⟩
      by_cases h1 : addr = "" ∨ loc = ""
      · tauto
      · push_neg at h1
        right; right
        intro h2
        have hl2 : (splitOnChar '@' addr.toList).length = 2 := by omega
        unfold RegisterMailbox at he
        rw [if_neg (by push_neg; exact h1)] at he
        dsimp only at he
        rw [if_neg (not_not_intro hl2)] at he
        split at he <;> simp at he
    · intro h
      rcases h with h | h | h
      · exact ⟨"email address and mailbox address cannot be empty",
          by unfold RegisterMailbox; rw [if_pos (Or.inl h)]⟩
      · exact ⟨"email address and mailbox address cannot be empty",
          by unfold RegisterMailbox; rw [if_pos (Or.inr h)]⟩
      · by_cases h1 : addr = "" ∨ loc = ""
        · exact ⟨"email address and mailbox address cannot be empty",
            by unfold RegisterMailbox; rw [if_pos h1]⟩
        · push_neg at h1
          have hl2 : (splitOnChar '@' addr.toList).length ≠ 2 := by omega
          refine ⟨"invalid email address format: " ++ addr, ?_⟩
          unfold RegisterMailbox
          rw [if_neg (by push_neg; exact h1)]
          dsimp only
          rw [if_pos hl2]
  · intro ha hl hc
    have hl2 : (splitOnChar '@' addr.toList).length = 2 := by omega
    have hbody : RegisterMailbox s addr loc =
        (if ((splitOnChar '@' addr.toList).getD 1 []).asString ∈
            s.responsibleDomains then
          Except.ok ({ s with
              mailboxes := fun k =>
                if k = addr then some loc else s.mailboxes k },
            { success := true, message := "Mailbox registered successfully" })
        else
          Except.ok (s, { success := false,
                          message := ("Domain '"
                            ++ ((splitOnChar '@' addr.toList).getD 1 []).asString
                            ++ "' is not managed by this Nameserver.") })) := by
      unfold RegisterMailbox
      rw [if_neg (by push_neg; exact ⟨ha, hl⟩)]
      dsimp only
      rw [if_neg (not_not_intro hl2)]
    by_cases h3 : ((splitOnChar '@' addr.toList).getD 1 []).asString ∈
        s.responsibleDomains
    · exact ⟨_, _, by rw [hbody, if_pos h3], iff_of_true rfl h3⟩
    · exact ⟨_, _, by rw [hbody, if_neg h3], iff_of_false (by simp) h3⟩

/-- C9 witness: "@earth.com" (empty local part, exactly one `@`) is
not a validation error; the call reaches the domain-authority check
and is accepted by the earth.com nameserver. -/
theorem register_validation_error_iff_witness :
    ((∃ e, RegisterMailbox (initialNameserver ["earth.com"])
          "@earth.com" "localhost:50052" = .error e) ↔
      ("@earth.com" = "" ∨ "localhost:50052" = "" ∨
        "@earth.com".toList.count '@' ≠ 1)) ∧
    ("@earth.com" ≠ "" → "localhost:50052" ≠ "" →
      "@earth.com".toList.count '@' = 1 →
      ∃ s2 r, RegisterMailbox (initialNameserver ["earth.com"])
          "@earth.com" "localhost:50052" = .ok (s2, r) ∧
        (r.success = true ↔
          emailDomain "@earth.com" ∈
            (initialNameserver ["earth.com"]).responsibleDomains)) :=
  register_validation_error_iff (initialNameserver ["earth.com"])
    "@earth.com" "localhost:50052"

end GoDissys
